import Mathlib

/-!
Shallow embedding of the samber/slog-gin request-logging middleware.

Bodies are modelled as lists of byte values (`List Nat`); Go `int` quantities
that take part in subtraction or signed comparison (`maxSize`, byte counters,
write results) are modelled as `Int`.  Go slice expressions `b[:k]` and
`bytes.Buffer.Truncate(k)` panic when the bound is out of range, so the
operations that use them return `Option`: `none` models a panic.

`dump.go` in the repository contains two historical revisions of the capture
wrappers.  Definitions suffixed `V1` embed the first revision
(`bodyWriter.Write` at lines 23-34, `bodyReader.Read` at lines 58-69);
unsuffixed definitions embed the later revision (`bodyWriter.Write` at lines
110-124, `bodyWriter.ReadFrom` at lines 127-183, `bodyReader.Read` at lines
207-218).
-/

namespace SlogGin

/-- Errors that flow through the capture wrappers.  `eof` is `io.EOF`,
`shortWrite` is `io.ErrShortWrite`, `invalidWrite` is the package-level
`errInvalidWrite = errors.New("invalid write result")` (dump.go line 100);
`other` stands for any further error value of the wrapped source or sink. -/
inductive GoError where
  | eof
  | shortWrite
  | invalidWrite
  | other (msg : String)
deriving DecidableEq, Repr

/-- Go slice expression `b[:k]` where `k` is an `int`: panics (`none`)
unless `0 <= k <= len(b)`. -/
def goSliceTo (b : List Nat) (k : Int) : Option (List Nat) :=
  if 0 ≤ k ∧ k ≤ (b.length : Int) then some (b.take k.toNat) else none

/-- `bytes.Buffer.Truncate(k)`: keeps the first `k` buffered bytes, panics
(`none`) unless `0 <= k <= Len()`. -/
def bufTruncate (buf : List Nat) (k : Int) : Option (List Nat) :=
  if 0 ≤ k ∧ k ≤ (buf.length : Int) then some (buf.take k.toNat) else none

/-- State of a `bodyWriter` (dump.go): the optional capture buffer `body`
(`none` when `recordBody` was false), the capacity `maxSize`, the running
byte counter `bytes`, and the log `sink` of every byte handed on to the
wrapped `gin.ResponseWriter`. -/
structure BodyWriter where
  body : Option (List Nat)
  maxSize : Int
  bytes : Int
  sink : List Nat
deriving DecidableEq, Repr

/-- `newBodyWriter` (dump.go lines 185-197): fresh empty buffer when
`recordBody`, `nil` buffer otherwise. -/
def newBodyWriter (maxSize : Int) (recordBody : Bool) : BodyWriter :=
  { body := if recordBody then some [] else none
    maxSize := maxSize
    bytes := 0
    sink := [] }

/-- First-revision `bodyWriter.Write` (dump.go lines 23-34): on overflow it
appends `b[:maxSize-body.Len()]`, then counts and forwards the full payload. -/
def bodyWriterWriteV1 (w : BodyWriter) (b : List Nat) : Option BodyWriter := do
  let body' ←
    match w.body with
    | none => pure none
    | some buf =>
      if (buf.length : Int) + (b.length : Int) > w.maxSize then do
        let s ← goSliceTo b (w.maxSize - (buf.length : Int))
        pure (some (buf ++ s))
      else
        pure (some (buf ++ b))
  pure { w with body := body', bytes := w.bytes + (b.length : Int), sink := w.sink ++ b }

/-- Later-revision `bodyWriter.Write` (dump.go lines 110-124): on overflow it
first executes `body.Truncate(min(maxSize, length, body.Len()))` and then
appends `b[:min(maxSize-body.Len(), length)]` (with `body.Len()` read after
the truncation), then counts and forwards the full payload. -/
def bodyWriterWrite (w : BodyWriter) (b : List Nat) : Option BodyWriter := do
  let length : Int := b.length
  let body' ←
    match w.body with
    | none => pure none
    | some buf =>
      if (buf.length : Int) + length > w.maxSize then do
        let buf1 ← bufTruncate buf (min (min w.maxSize length) (buf.length : Int))
        let s ← goSliceTo b (min (w.maxSize - (buf1.length : Int)) length)
        pure (some (buf1 ++ s))
      else
        pure (some (buf ++ b))
  pure { w with body := body', bytes := w.bytes + length, sink := w.sink ++ b }

/-- State of a `bodyReader` (dump.go): optional capture buffer, capacity,
running byte counter. -/
structure BodyReader where
  body : Option (List Nat)
  maxSize : Int
  bytes : Int
deriving DecidableEq, Repr

/-- `newBodyReader` (dump.go lines 71-83 and 220-232). -/
def newBodyReader (maxSize : Int) (recordBody : Bool) : BodyReader :=
  { body := if recordBody then some [] else none
    maxSize := maxSize
    bytes := 0 }

/-- First-revision `bodyReader.Read` (dump.go lines 58-69).  `data` is the
chunk of `n = data.length` bytes the wrapped `ReadCloser` deposited in the
caller's buffer and `err` is the error it returned; the result carries the
updated state together with the `(n, err)` pair handed back to the caller. -/
def bodyReaderReadV1 (r : BodyReader) (data : List Nat) (err : Option GoError) :
    Option (BodyReader × Nat × Option GoError) := do
  let n : Int := data.length
  let body' ←
    match r.body with
    | none => pure none
    | some buf =>
      if (buf.length : Int) + n > r.maxSize then do
        let s ← goSliceTo data (r.maxSize - (buf.length : Int))
        pure (some (buf ++ s))
      else
        pure (some (buf ++ data))
  pure ({ r with body := body', bytes := r.bytes + n }, data.length, err)

/-- Later-revision `bodyReader.Read` (dump.go lines 207-218): the capture
append additionally requires `body.Len() < maxSize` and clamps the slice
bound with `min(maxSize-body.Len(), n)`. -/
def bodyReaderRead (r : BodyReader) (data : List Nat) (err : Option GoError) :
    Option (BodyReader × Nat × Option GoError) := do
  let n : Int := data.length
  let body' ←
    match r.body with
    | none => pure none
    | some buf =>
      if (buf.length : Int) < r.maxSize then
        if (buf.length : Int) + n > r.maxSize then do
          let s ← goSliceTo data (min (r.maxSize - (buf.length : Int)) n)
          pure (some (buf ++ s))
        else
          pure (some (buf ++ data))
      else
        pure (some buf)
  pure ({ r with body := body', bytes := r.bytes + n }, data.length, err)

/-- Runs a finite sequence of `Write` calls through a capture writer,
propagating a panic (`none`) of any single call. -/
def runWrites (step : BodyWriter → List Nat → Option BodyWriter)
    (w : BodyWriter) : List (List Nat) → Option BodyWriter
  | [] => some w
  | b :: bs => (step w b).bind (fun w1 => runWrites step w1 bs)

/-- Runs a finite sequence of `Read` calls through a capture reader; the
second component collects the `(n, err)` results returned to the caller,
in call order. -/
def runReads
    (step : BodyReader → List Nat → Option GoError → Option (BodyReader × Nat × Option GoError))
    (r : BodyReader) :
    List (List Nat × Option GoError) → Option (BodyReader × List (Nat × Option GoError))
  | [] => some (r, [])
  | (d, e) :: es =>
    (step r d e).bind (fun out =>
      (runReads step out.1 es).bind (fun res => some (res.1, out.2 :: res.2)))

/-- The inlined-`io.Copy` relay of the later-revision `bodyWriter.ReadFrom`
(dump.go lines 154-180), reached when capture buffering is active
(`w.body != nil`, so the `ReaderFrom` fast path at lines 128-134 is skipped)
and the source is not an `io.WriterTo`.  The intermediate window size
(lines 140-148) only chunks the source and is immaterial here: `src` lists
the successive `(chunk, error)` results of `r.Read`, and `sinkRes` lists the
successive `(nw, ew)` results the wrapped `gin.ResponseWriter` returns from
inside `w.Write`.  Returns `(written, err, totalRead, final writer state)`;
`none` models a run that leaves the supplied event lists (the source would
have to be read again) or a capture panic. -/
def readFromLoop (w : BodyWriter) (src : List (List Nat × Option GoError))
    (sinkRes : List (Int × Option GoError)) (written totalRead : Int) :
    Option (Int × Option GoError × Int × BodyWriter) :=
  match src with
  | [] => none
  | (data, er) :: rest =>
    let nr : Int := data.length
    if 0 < nr then
      match sinkRes with
      | [] => none
      | (nw0, ew0) :: sinkRest =>
        match bodyWriterWrite w data with
        | none => none
        | some w1 =>
          -- `if nw < 0 || nr < nw { nw = 0; if ew == nil { ew = errInvalidWrite } }`
          let bad := nw0 < 0 ∨ nr < nw0
          let nw := if bad then 0 else nw0
          let ew := if bad ∧ ew0 = none then some GoError.invalidWrite else ew0
          let written1 := written + nw
          if ew ≠ none then some (written1, ew, totalRead + nr, w1)
          else if nr ≠ nw then some (written1, some GoError.shortWrite, totalRead + nr, w1)
          else
            match er with
            | none => readFromLoop w1 rest sinkRest written1 (totalRead + nr)
            | some GoError.eof => some (written1, none, totalRead + nr, w1)
            | some e => some (written1, some e, totalRead + nr, w1)
    else
      match er with
      | none => readFromLoop w rest sinkRes written totalRead
      | some GoError.eof => some (written, none, totalRead, w)
      | some e => some (written, some e, totalRead, w)

/-!
Embedding of middleware.go.  The interceptor's post-completion work is a
pure function of the completed request/response view; the pieces the claims
are about are embedded one by one, keeping the source's names.
-/

/-- `HiddenRequestHeaders` (middleware.go lines 28-35): lowercase names
excluded from the request header group. -/
def HiddenRequestHeaders : List String :=
  ["authorization", "cookie", "set-cookie", "x-auth-token", "x-csrf-token", "x-xsrf-token"]

/-- `HiddenResponseHeaders` (middleware.go lines 36-38): lowercase names
excluded from the response header group. -/
def HiddenResponseHeaders : List String :=
  ["set-cookie"]

/-- Character-wise lowercasing, modelling `strings.ToLower` as it is applied
to header names (Go canonical header names are ASCII, where the two agree). -/
def lowerName (s : String) : String :=
  String.mk (s.data.map Char.toLower)

/-- The loops at middleware.go lines 185-190 and 209-214: keep each header
entry unless its `strings.ToLower`-ed name is in the given hidden set.
Go map iteration order is unspecified, so the header map is taken as a list
of entries in an arbitrary order. -/
def headerGroup (hidden : List String) (headers : List (String × List String)) :
    List (String × List String) :=
  headers.filter (fun kv => !(hidden.contains (lowerName kv.1)))

/-- The request header group (middleware.go lines 182-193): emitted only when
`config.WithRequestHeader` is set. -/
def requestHeaderGroup (withRequestHeader : Bool) (headers : List (String × List String)) :
    Option (List (String × List String)) :=
  if withRequestHeader then some (headerGroup HiddenRequestHeaders headers) else none

/-- The response header group (middleware.go lines 206-217): emitted only when
`config.WithResponseHeader` is set. -/
def responseHeaderGroup (withResponseHeader : Bool) (headers : List (String × List String)) :
    Option (List (String × List String)) :=
  if withResponseHeader then some (headerGroup HiddenResponseHeaders headers) else none

/-- The three severity fields of `Config` (middleware.go lines 45-47);
`slog.Level` is an integer type. -/
structure LogConfig where
  defaultLevel : Int
  clientErrorLevel : Int
  serverErrorLevel : Int
deriving DecidableEq, Repr

/-- Severity selection (middleware.go lines 247-255): `level` starts at
`config.DefaultLevel` and is replaced for `400 <= status < 500` and for
`status >= 500`. -/
def logLevel (config : LogConfig) (status : Int) : Int :=
  if 400 ≤ status ∧ status < 500 then config.clientErrorLevel
  else if 500 ≤ status then config.serverErrorLevel
  else config.defaultLevel

/-- The message passed to `logger.LogAttrs`: either the string literal
`"Incoming request"` or the value of `c.Errors.String()` applied to the
handler-recorded error list.  Gin renders each recorded error with an
`Error #NN:` prefix, so the two constructors never denote the same string. -/
inductive LogMsg where
  | incoming
  | errorSummary (errs : List String)
deriving DecidableEq, Repr

/-- Message selection (middleware.go lines 248-255): `msg` starts at
`"Incoming request"` and is replaced by `c.Errors.String()` in the same two
status branches that replace the severity. -/
def logMessage (status : Int) (errs : List String) : LogMsg :=
  if 400 ≤ status ∧ status < 500 then LogMsg.errorSummary errs
  else if 500 ≤ status then LogMsg.errorSummary errs
  else LogMsg.incoming

/-- Everything the request-identifier setup (middleware.go lines 119-126)
decides, together with the `RequestIDKey` attribute later added to
`baseAttributes` (lines 168-170): the `requestID` local, the value stored
under `requestIDCtx`, the `X-Request-Id` response header set by the
middleware, and the identifier attribute of the emitted record. -/
structure RequestIDState where
  requestID : String
  ctxRequestID : Option String
  responseHeader : Option String
  logged : Option String
deriving DecidableEq, Repr

/-- Request-identifier setup: `requestID := c.GetHeader(RequestIDHeaderKey)`;
when `config.WithRequestID` is set, an empty inbound value is replaced by a
generated UUID (modelled as the `generated` argument) which is also set as
the response header, and the resulting value is stored in the context; the
identifier is logged iff `config.WithRequestID`. -/
def setupRequestID (withRequestID : Bool) (inbound : String) (generated : String) :
    RequestIDState :=
  if withRequestID then
    if inbound = ("") then
      { requestID := generated, ctxRequestID := some generated
        responseHeader := some generated, logged := some generated }
    else
      { requestID := inbound, ctxRequestID := some inbound
        responseHeader := none, logged := some inbound }
  else
    { requestID := inbound, ctxRequestID := none, responseHeader := none, logged := none }

/-- The filter loop (middleware.go lines 241-245): filters run left to right
and the enclosing function returns at the first one yielding `false`.
Returns whether emission goes ahead together with the number of filter
predicates that were actually evaluated. -/
def runFilters {α : Type} : List (α → Bool) → α → Bool × Nat
  | [], _ => (true, 0)
  | f :: fs, c =>
    if f c then ((runFilters fs c).1, (runFilters fs c).2 + 1)
    else (false, 1)

/-- Number of log records emitted for one completed request: one
`logger.LogAttrs` call (middleware.go line 257) unless a filter returned
`false`. -/
def emitCount {α : Type} (filters : List (α → Bool)) (c : α) : Nat :=
  if (runFilters filters c).1 then 1 else 0

/-- A value stored in the gin context under `customAttributesCtxKey`:
either a `[]slog.Attr` (attributes as key/value string pairs) or a value of
any other dynamic type, identified by a tag. -/
inductive CtxValue where
  | attrs (l : List (String × String))
  | other (tag : String)
deriving DecidableEq, Repr

/-- `AddCustomAttributes` (middleware.go lines 276-287), as a function of the
value currently stored under `customAttributesCtxKey`: no stored value means
a fresh one-element slice is stored; a `[]slog.Attr` value is extended; the
type switch matches nothing else, so any other stored value is left as it
is and the attribute is dropped. -/
def AddCustomAttributes (stored : Option CtxValue) (attr : String × String) :
    Option CtxValue :=
  match stored with
  | none => some (CtxValue.attrs [attr])
  | some (CtxValue.attrs l) => some (CtxValue.attrs (l ++ [attr]))
  | some v => some v

/-- The custom-attribute merge step (middleware.go lines 234-239): a stored
`[]slog.Attr` is appended to the built-in attributes; any other stored value
is ignored by the type switch. -/
def mergeCustomAttributes (attributes : List (String × String)) (stored : Option CtxValue) :
    List (String × String) :=
  match stored with
  | some (CtxValue.attrs l) => attributes ++ l
  | _ => attributes

/-- The capture-writer state the specification prescribes after a stream of
bytes has gone through a buffering wrapper of capacity `C`: the buffer holds
the first `min(S, C)` bytes of the stream, the counter holds `S = |stream|`,
and the sink received the stream itself, unmodified. -/
def specWriter (C : Int) (stream : List Nat) : BodyWriter :=
  { body := some (stream.take C.toNat)
    maxSize := C
    bytes := stream.length
    sink := stream }

/-- The capture-reader state the specification prescribes after the wrapped
source has delivered `stream`. -/
def specReader (C : Int) (stream : List Nat) : BodyReader :=
  { body := some (stream.take C.toNat)
    maxSize := C
    bytes := stream.length }

theorem newBodyWriter_eq_spec (C : Int) : newBodyWriter C true = specWriter C [] := by
  simp [newBodyWriter, specWriter]

theorem newBodyReader_eq_spec (C : Int) : newBodyReader C true = specReader C [] := by
  simp [newBodyReader, specReader]

/-- One first-revision `Write` keeps the prescribed capture state. -/
theorem bodyWriterWriteV1_step (C : Int) (hC : 0 ≤ C) (s b : List Nat) :
    bodyWriterWriteV1 (specWriter C s) b = some (specWriter C (s ++ b)) := by
  have hlen : (s.take C.toNat).length = min C.toNat s.length := List.length_take _ _
  have htake : (s ++ b).take C.toNat = s.take C.toNat ++ b.take (C.toNat - s.length) :=
    List.take_append_eq_append_take
  by_cases hov : ((s.take C.toNat).length : Int) + (b.length : Int) > C
  · have h0 : 0 ≤ C - ((s.take C.toNat).length : Int) := by
      rw [hlen]; push_cast; omega
    have h1 : C - ((s.take C.toNat).length : Int) ≤ (b.length : Int) := by omega
    have hslice : goSliceTo b (C - ((s.take C.toNat).length : Int))
        = some (b.take (C - ((s.take C.toNat).length : Int)).toNat) := by
      simp only [goSliceTo, if_pos (And.intro h0 h1)]
    have htn : (C - ((s.take C.toNat).length : Int)).toNat = C.toNat - s.length := by
      rw [hlen]; omega
    simp only [bodyWriterWriteV1, specWriter, if_pos hov, hslice, htn, Option.bind_eq_bind,
      Option.bind_some]
    simp [specWriter, htake]
  · have hb : b.take (C.toNat - s.length) = b := by
      rw [hlen] at hov
      refine List.take_of_length_le ?_
      omega
    simp only [bodyWriterWriteV1, specWriter, if_neg hov, Option.bind_eq_bind, Option.bind_some]
    simp [specWriter, htake, hb]

/-- One first-revision `Read` keeps the prescribed capture state and returns
the source's count and error unchanged. -/
theorem bodyReaderReadV1_step (C : Int) (hC : 0 ≤ C) (s data : List Nat)
    (err : Option GoError) :
    bodyReaderReadV1 (specReader C s) data err
      = some (specReader C (s ++ data), data.length, err) := by
  have hlen : (s.take C.toNat).length = min C.toNat s.length := List.length_take _ _
  have htake : (s ++ data).take C.toNat = s.take C.toNat ++ data.take (C.toNat - s.length) :=
    List.take_append_eq_append_take
  by_cases hov : ((s.take C.toNat).length : Int) + (data.length : Int) > C
  · have h0 : 0 ≤ C - ((s.take C.toNat).length : Int) := by
      rw [hlen]; push_cast; omega
    have h1 : C - ((s.take C.toNat).length : Int) ≤ (data.length : Int) := by omega
    have hslice : goSliceTo data (C - ((s.take C.toNat).length : Int))
        = some (data.take (C - ((s.take C.toNat).length : Int)).toNat) := by
      simp only [goSliceTo, if_pos (And.intro h0 h1)]
    have htn : (C - ((s.take C.toNat).length : Int)).toNat = C.toNat - s.length := by
      rw [hlen]; omega
    simp only [bodyReaderReadV1, specReader, if_pos hov, hslice, htn, Option.bind_eq_bind,
      Option.bind_some]
    simp [specReader, htake]
  · have hb : data.take (C.toNat - s.length) = data := by
      rw [hlen] at hov
      refine List.take_of_length_le ?_
      omega
    simp only [bodyReaderReadV1, specReader, if_neg hov, Option.bind_eq_bind, Option.bind_some]
    simp [specReader, htake, hb]

/-- One later-revision `Read` keeps the prescribed capture state and returns
the source's count and error unchanged. -/
theorem bodyReaderRead_step (C : Int) (hC : 0 ≤ C) (s data : List Nat)
    (err : Option GoError) :
    bodyReaderRead (specReader C s) data err
      = some (specReader C (s ++ data), data.length, err) := by
  have hlen : (s.take C.toNat).length = min C.toNat s.length := List.length_take _ _
  have htake : (s ++ data).take C.toNat = s.take C.toNat ++ data.take (C.toNat - s.length) :=
    List.take_append_eq_append_take
  by_cases hfull : ((s.take C.toNat).length : Int) < C
  · by_cases hov : ((s.take C.toNat).length : Int) + (data.length : Int) > C
    · have h0 : 0 ≤ min (C - ((s.take C.toNat).length : Int)) (data.length : Int) := by
        rw [hlen] at hfull ⊢
        push_cast at hfull ⊢
        omega
      have h1 : min (C - ((s.take C.toNat).length : Int)) (data.length : Int)
          ≤ (data.length : Int) := min_le_right _ _
      have hslice : goSliceTo data (min (C - ((s.take C.toNat).length : Int)) (data.length : Int))
          = some (data.take (min (C - ((s.take C.toNat).length : Int))
              (data.length : Int)).toNat) := by
        simp only [goSliceTo, if_pos (And.intro h0 h1)]
      have htn : (min (C - ((s.take C.toNat).length : Int)) (data.length : Int)).toNat
          = C.toNat - s.length := by
        rw [hlen]
        omega
      simp only [bodyReaderRead, specReader, if_pos hfull, if_pos hov, hslice, htn,
        Option.bind_eq_bind, Option.bind_some]
      simp [specReader, htake]
    · have hb : data.take (C.toNat - s.length) = data := by
        rw [hlen] at hov
        refine List.take_of_length_le ?_
        omega
      simp only [bodyReaderRead, specReader, if_pos hfull, if_neg hov, Option.bind_eq_bind,
        Option.bind_some]
      simp [specReader, htake, hb]
  · have hslen : C.toNat ≤ s.length := by
      rw [hlen] at hfull
      push_cast at hfull
      omega
    have hb : data.take (C.toNat - s.length) = [] := by
      have : C.toNat - s.length = 0 := Nat.sub_eq_zero_of_le hslen
      simp [this]
    simp only [bodyReaderRead, specReader, if_neg hfull, Option.bind_eq_bind, Option.bind_some]
    simp [specReader, htake, hb]

/-- Running any number of first-revision `Write` calls from the prescribed
state stays in the prescribed state. -/
theorem runWrites_writeV1 (C : Int) (hC : 0 ≤ C) (bs : List (List Nat)) :
    ∀ s : List Nat,
    runWrites bodyWriterWriteV1 (specWriter C s) bs = some (specWriter C (s ++ bs.flatten)) := by
  induction bs with
  | nil => intro s; simp [runWrites]
  | cons b bs ih =>
    intro s
    simp only [runWrites, bodyWriterWriteV1_step C hC s b, Option.some_bind]
    rw [ih (s ++ b)]
    simp

/-- Running any number of `Read` calls from the prescribed state stays in the
prescribed state and returns the sources' counts and errors unchanged, for
either revision of `bodyReader.Read`. -/
theorem runReads_spec
    (step : BodyReader → List Nat → Option GoError → Option (BodyReader × Nat × Option GoError))
    (hstep : ∀ (C : Int), 0 ≤ C → ∀ (s data : List Nat) (err : Option GoError),
      step (specReader C s) data err = some (specReader C (s ++ data), data.length, err))
    (C : Int) (hC : 0 ≤ C) (events : List (List Nat × Option GoError)) :
    ∀ s : List Nat,
    runReads step (specReader C s) events
      = some (specReader C (s ++ (events.map Prod.fst).flatten),
              events.map (fun e => (e.1.length, e.2))) := by
  induction events with
  | nil => intro s; simp [runReads]
  | cons e es ih =>
    intro s
    obtain ⟨d, er⟩ := e
    simp only [runReads, hstep C hC s d er, Option.some_bind]
    rw [ih (s ++ d)]
    simp

/-- One later-revision `Write` never panics when the capacity is
non-negative and the buffer is within capacity, leaves the buffer within
capacity, counts the full payload and forwards it unmodified. -/
theorem bodyWriterWrite_bounded_step (w : BodyWriter) (b buf : List Nat)
    (hbody : w.body = some buf) (hC : 0 ≤ w.maxSize)
    (hlen : (buf.length : Int) ≤ w.maxSize) :
    ∃ buf1 : List Nat,
      bodyWriterWrite w b
        = some { body := some buf1, maxSize := w.maxSize
                 bytes := w.bytes + (b.length : Int), sink := w.sink ++ b }
      ∧ (buf1.length : Int) ≤ w.maxSize := by
  by_cases hov : (buf.length : Int) + (b.length : Int) > w.maxSize
  · set t : Int := min (min w.maxSize (b.length : Int)) (buf.length : Int) with ht
    have ht0 : 0 ≤ t := by
      rw [ht]; omega
    have htl : t ≤ (buf.length : Int) := min_le_right _ _
    have htrunc : bufTruncate buf t = some (buf.take t.toNat) := by
      simp only [bufTruncate, if_pos (And.intro ht0 htl)]
    have hbl : ((buf.take t.toNat).length : Int) = t := by
      rw [List.length_take]
      push_cast
      omega
    set k : Int := min (w.maxSize - ((buf.take t.toNat).length : Int)) (b.length : Int) with hk
    have hk0 : 0 ≤ k := by
      rw [hk, hbl]; omega
    have hkb : k ≤ (b.length : Int) := min_le_right _ _
    have hslice : goSliceTo b k = some (b.take k.toNat) := by
      simp only [goSliceTo, if_pos (And.intro hk0 hkb)]
    refine ⟨buf.take t.toNat ++ b.take k.toNat, ?_, ?_⟩
    · simp only [bodyWriterWrite, hbody, if_pos hov, htrunc, Option.pure_def,
        Option.bind_eq_bind, Option.some_bind]
      simp only [← hk]
      rw [hslice]
      simp
    · have hkl : ((b.take k.toNat).length : Int) = k := by
        rw [List.length_take]
        push_cast
        omega
      rw [List.length_append]
      push_cast
      rw [hbl] at hk
      omega
  · refine ⟨buf ++ b, ?_, ?_⟩
    · simp only [bodyWriterWrite, hbody, if_neg hov, Option.pure_def,
        Option.bind_eq_bind, Option.some_bind]
    · rw [List.length_append]
      push_cast
      omega

/-- Running any number of later-revision `Write` calls from a within-capacity
state succeeds, keeps the buffer within capacity, counts every byte and
forwards every byte. -/
theorem runWrites_write_bounded (bs : List (List Nat)) :
    ∀ (w : BodyWriter) (buf : List Nat), w.body = some buf → 0 ≤ w.maxSize →
    (buf.length : Int) ≤ w.maxSize →
    ∃ (w1 : BodyWriter) (buf1 : List Nat),
      runWrites bodyWriterWrite w bs = some w1
      ∧ w1.body = some buf1 ∧ (buf1.length : Int) ≤ w.maxSize
      ∧ w1.maxSize = w.maxSize
      ∧ w1.bytes = w.bytes + (bs.flatten.length : Int)
      ∧ w1.sink = w.sink ++ bs.flatten := by
  induction bs with
  | nil =>
    intro w buf h1 h2 h3
    exact ⟨w, buf, rfl, h1, h3, rfl, by simp, by simp⟩
  | cons b bs ih =>
    intro w buf h1 h2 h3
    obtain ⟨buf1, hstep, hb1⟩ := bodyWriterWrite_bounded_step w b buf h1 h2 h3
    obtain ⟨w1, buf2, hrun, hbody2, hlen2, hmax2, hbytes2, hsink2⟩ :=
      ih { body := some buf1, maxSize := w.maxSize
           bytes := w.bytes + (b.length : Int), sink := w.sink ++ b }
        buf1 rfl h2 hb1
    refine ⟨w1, buf2, ?_, hbody2, by simpa using hlen2, by simpa using hmax2, ?_, ?_⟩
    · simp only [runWrites, hstep, Option.some_bind, hrun]
    · rw [hbytes2]
      simp only [List.flatten_cons, List.length_append]
      push_cast
      ring
    · rw [hsink2]
      simp

/-!
Claims C1, C2, C3: the capture wrappers.
-/

/-- C1 (code bug): the later-revision `bodyWriter.Write` does not keep the
first `min(S, C)` bytes of the stream.  At capacity 10, writing 8 bytes and
then 5 leaves the buffer holding 5 bytes of the first write followed by the
whole second write instead of the 10-byte stream prefix (which the
first-revision `Write` does keep, on the same input), and at capacity 100,
writing 99 bytes and then 2 truncates the buffer down to 4 bytes, so not
even the buffered length matches `min(S, C) = 100`.  The byte counter and
the bytes forwarded to the sink are as claimed. -/
theorem bodyWriterWrite_not_prefix_of_stream :
    runWrites bodyWriterWrite (newBodyWriter 10 true)
        [[1, 1, 1, 1, 1, 1, 1, 1], [2, 2, 2, 2, 2]]
      = some { body := some [1, 1, 1, 1, 1, 2, 2, 2, 2, 2], maxSize := 10, bytes := 13
               sink := [1, 1, 1, 1, 1, 1, 1, 1, 2, 2, 2, 2, 2] }
    ∧ [1, 1, 1, 1, 1, 2, 2, 2, 2, 2]
        ≠ (([1, 1, 1, 1, 1, 1, 1, 1] ++ [2, 2, 2, 2, 2] : List Nat)).take 10
    ∧ runWrites bodyWriterWriteV1 (newBodyWriter 10 true)
        [[1, 1, 1, 1, 1, 1, 1, 1], [2, 2, 2, 2, 2]]
      = some { body := some (([1, 1, 1, 1, 1, 1, 1, 1] ++ [2, 2, 2, 2, 2] : List Nat).take 10)
               maxSize := 10, bytes := 13, sink := [1, 1, 1, 1, 1, 1, 1, 1, 2, 2, 2, 2, 2] }
    ∧ (runWrites bodyWriterWrite (newBodyWriter 100 true)
          [List.replicate 99 1, [2, 2]]).map (fun w => w.body.map List.length)
      = some (some 4)
    ∧ (4 : Nat) ≠ min (99 + 2) 100 := by
  refine ⟨by decide, by decide, by decide, by decide, by decide⟩

/-- C2: for either revision of `bodyReader.Read` with buffering enabled and
capacity `C >= 0`, after any finite sequence of reads through which the
source delivers `S` bytes in total, the capture buffer holds `min(S, C)`
bytes (in fact the first `min(S, C)` bytes delivered), the byte counter
equals `S`, and every call returned the source's byte count and error to the
caller unchanged. -/
theorem bodyReaderRead_capture_spec (C : Int) (hC : 0 ≤ C)
    (events : List (List Nat × Option GoError)) :
    runReads bodyReaderReadV1 (newBodyReader C true) events
      = some (specReader C ((events.map Prod.fst).flatten),
              events.map (fun e => (e.1.length, e.2)))
    ∧ runReads bodyReaderRead (newBodyReader C true) events
      = some (specReader C ((events.map Prod.fst).flatten),
              events.map (fun e => (e.1.length, e.2)))
    ∧ (specReader C ((events.map Prod.fst).flatten)).body
        = some (((events.map Prod.fst).flatten).take C.toNat)
    ∧ (((events.map Prod.fst).flatten).take C.toNat).length
        = min ((events.map Prod.fst).flatten).length C.toNat
    ∧ (specReader C ((events.map Prod.fst).flatten)).bytes
        = (((events.map Prod.fst).flatten).length : Int) := by
  refine ⟨?_, ?_, rfl, ?_, rfl⟩
  · rw [newBodyReader_eq_spec, runReads_spec bodyReaderReadV1 bodyReaderReadV1_step C hC events []]
    simp
  · rw [newBodyReader_eq_spec, runReads_spec bodyReaderRead bodyReaderRead_step C hC events []]
    simp
  · rw [List.length_take]
    omega

theorem bodyReaderRead_capture_spec_witness :
    runReads bodyReaderReadV1 (newBodyReader 3 true) [([1, 2], none), ([3, 4], some GoError.eof)]
      = some ({ body := some [1, 2, 3], maxSize := 3, bytes := 4 },
              [(2, none), (2, some GoError.eof)])
    ∧ runReads bodyReaderRead (newBodyReader 3 true) [([1, 2], none), ([3, 4], some GoError.eof)]
      = some ({ body := some [1, 2, 3], maxSize := 3, bytes := 4 },
              [(2, none), (2, some GoError.eof)]) := by
  have h := bodyReaderRead_capture_spec 3 (by decide) [([1, 2], none), ([3, 4], some GoError.eof)]
  exact ⟨by rw [h.1]; rfl, by rw [h.2.1]; rfl⟩

/-- C3: with buffering enabled and capacity `C >= 0`, every finite sequence
of later-revision writes, and every finite sequence of first-revision reads,
runs without panicking at the capacity boundary, never lets the capture
buffer exceed `C`, and still counts every byte and forwards every byte
downstream (to the wrapped sink, and to the caller respectively). -/
theorem capture_buffer_bounded (C : Int) (hC : 0 ≤ C)
    (writes : List (List Nat)) (events : List (List Nat × Option GoError)) :
    (∃ (w1 : BodyWriter) (buf1 : List Nat),
      runWrites bodyWriterWrite (newBodyWriter C true) writes = some w1
      ∧ w1.body = some buf1 ∧ (buf1.length : Int) ≤ C
      ∧ w1.bytes = (writes.flatten.length : Int)
      ∧ w1.sink = writes.flatten)
    ∧ (∃ r1 : BodyReader,
      runReads bodyReaderReadV1 (newBodyReader C true) events
        = some (r1, events.map (fun e => (e.1.length, e.2)))
      ∧ (∃ buf1 : List Nat, r1.body = some buf1 ∧ (buf1.length : Int) ≤ C)
      ∧ r1.bytes = ((events.map Prod.fst).flatten.length : Int)) := by
  constructor
  · obtain ⟨w1, buf1, hrun, hbody, hlen, hmax, hbytes, hsink⟩ :=
      runWrites_write_bounded writes (newBodyWriter C true) []
        (by simp [newBodyWriter]) (by simpa [newBodyWriter] using hC)
        (by simp only [newBodyWriter, List.length_nil, Nat.cast_zero]; exact hC)
    refine ⟨w1, buf1, hrun, hbody, by simpa [newBodyWriter] using hlen, ?_, ?_⟩
    · rw [hbytes]; simp [newBodyWriter]
    · rw [hsink]; simp [newBodyWriter]
  · rw [newBodyReader_eq_spec, runReads_spec bodyReaderReadV1 bodyReaderReadV1_step C hC events []]
    simp only [List.nil_append]
    refine ⟨specReader C ((events.map Prod.fst).flatten), rfl, ⟨_, rfl, ?_⟩, rfl⟩
    simp only [specReader, List.length_take]
    push_cast
    omega

theorem capture_buffer_bounded_witness :
    (0 : Int) ≤ 10
    ∧ (∃ (w1 : BodyWriter) (buf1 : List Nat),
        runWrites bodyWriterWrite (newBodyWriter 10 true)
            [[1, 1, 1, 1, 1, 1, 1, 1], [2, 2, 2, 2, 2]] = some w1
        ∧ w1.body = some buf1 ∧ (buf1.length : Int) ≤ 10
        ∧ w1.bytes = (([[1, 1, 1, 1, 1, 1, 1, 1], [2, 2, 2, 2, 2]] : List (List Nat)).flatten.length : Int)
        ∧ w1.sink = ([[1, 1, 1, 1, 1, 1, 1, 1], [2, 2, 2, 2, 2]] : List (List Nat)).flatten) :=
  ⟨by decide,
   (capture_buffer_bounded 10 (by decide) [[1, 1, 1, 1, 1, 1, 1, 1], [2, 2, 2, 2, 2]] []).1⟩

/-- In the relay, a run that ends without error has forwarded to the sink
exactly as many bytes as it read from the source. -/
theorem readFromLoop_success_written (src : List (List Nat × Option GoError)) :
    ∀ (sinkRes : List (Int × Option GoError)) (w : BodyWriter) (written totalRead : Int)
      (res : Int × Option GoError × Int × BodyWriter),
    written = totalRead →
    readFromLoop w src sinkRes written totalRead = some res →
    res.2.1 = none →
    res.1 = res.2.2.1 := by
  induction src with
  | nil =>
    intro sinkRes w written totalRead res heq hrun hnone
    simp [readFromLoop] at hrun
  | cons e rest ih =>
    intro sinkRes w written totalRead res heq hrun hnone
    obtain ⟨data, er⟩ := e
    simp only [readFromLoop] at hrun
    by_cases hnr : 0 < (data.length : Int)
    · rw [if_pos hnr] at hrun
      cases sinkRes with
      | nil => simp at hrun
      | cons sr sinkRest =>
        obtain ⟨nw0, ew0⟩ := sr
        cases hw : bodyWriterWrite w data with
        | none => rw [hw] at hrun; simp at hrun
        | some w1 =>
          rw [hw] at hrun
          dsimp only at hrun
          cases ew0 with
          | some e0 =>
            simp only [and_false, if_false, ne_eq, Option.some_ne_none, not_false_iff,
              if_true, reduceCtorEq] at hrun
            rw [Option.some_inj] at hrun; subst hrun
            simp at hnone
          | none =>
            by_cases hbad : nw0 < 0 ∨ (data.length : Int) < nw0
            · simp only [hbad, true_and, if_pos rfl, ite_true, ne_eq, Option.some_ne_none,
                not_false_iff, if_true, reduceCtorEq] at hrun
              rw [Option.some_inj] at hrun; subst hrun
              simp at hnone
            · simp only [hbad, false_and, if_false, ite_false, ne_eq, not_true, if_neg,
                reduceCtorEq] at hrun
              by_cases hshort : (data.length : Int) ≠ nw0
              · rw [if_pos hshort] at hrun
                rw [Option.some_inj] at hrun; subst hrun
                simp at hnone
              · rw [if_neg hshort] at hrun
                cases er with
                | none =>
                  exact ih sinkRest w1 (written + nw0) (totalRead + data.length) res
                    (by omega) hrun hnone
                | some g =>
                  cases g with
                  | eof =>
                    rw [Option.some_inj] at hrun; subst hrun
                    simp only []
                    omega
                  | shortWrite => rw [Option.some_inj] at hrun; subst hrun; simp at hnone
                  | invalidWrite => rw [Option.some_inj] at hrun; subst hrun; simp at hnone
                  | other m => rw [Option.some_inj] at hrun; subst hrun; simp at hnone
    · rw [if_neg hnr] at hrun
      cases er with
      | none => exact ih sinkRes w written totalRead res heq hrun hnone
      | some g =>
        cases g with
        | eof =>
          rw [Option.some_inj] at hrun; subst hrun
          exact heq
        | shortWrite => rw [Option.some_inj] at hrun; subst hrun; simp at hnone
        | invalidWrite => rw [Option.some_inj] at hrun; subst hrun; simp at hnone
        | other m => rw [Option.some_inj] at hrun; subst hrun; simp at hnone

/-- C9 counterexample: a zero-progress write (the sink reports 0 bytes
written, no error) is converted to `io.ErrShortWrite`, not to the
distinguished `errInvalidWrite` as claimed — `errInvalidWrite` is reserved
for negative or over-reporting write results. -/
theorem readFromLoop_zero_progress_not_invalidWrite :
    (readFromLoop (newBodyWriter 10 true) [([1, 2], none)] [(0, none)] 0 0).map
        (fun res => res.2.1)
      = some (some GoError.shortWrite)
    ∧ some GoError.shortWrite ≠ some GoError.invalidWrite := by
  refine ⟨by decide, by decide⟩

/-- C9 (amended): in the relay with capture buffering active, (i) a write
result reporting negative progress or more bytes than were handed over,
with no write error, is converted to the distinguished `errInvalidWrite`
and terminates the relay at that event whatever source events follow;
(ii) a write of fewer bytes than requested — including zero progress — with
no write error terminates the relay there with `io.ErrShortWrite`;
(iii) a write error is surfaced as is and terminates the relay there; and
(iv) a run that returns without error has forwarded exactly as many bytes
as it read from the source, so the relay never reports success after
forwarding fewer bytes than it read. -/
theorem readFromLoop_error_spec
    (w w1 : BodyWriter) (data : List Nat) (rest : List (List Nat × Option GoError))
    (er : Option GoError) (e0 : GoError) (nw0 : Int)
    (sinkRest sinkRes : List (Int × Option GoError))
    (src : List (List Nat × Option GoError))
    (written totalRead : Int) (res : Int × Option GoError × Int × BodyWriter) :
    (0 < (data.length : Int) → bodyWriterWrite w data = some w1 →
      (nw0 < 0 ∨ (data.length : Int) < nw0) →
      readFromLoop w ((data, er) :: rest) ((nw0, none) :: sinkRest) 0 0
        = some (0, some GoError.invalidWrite, (data.length : Int), w1))
    ∧ (0 < (data.length : Int) → bodyWriterWrite w data = some w1 →
      0 ≤ nw0 → nw0 < (data.length : Int) →
      readFromLoop w ((data, er) :: rest) ((nw0, none) :: sinkRest) 0 0
        = some (nw0, some GoError.shortWrite, (data.length : Int), w1))
    ∧ (0 < (data.length : Int) → bodyWriterWrite w data = some w1 →
      0 ≤ nw0 → nw0 ≤ (data.length : Int) →
      readFromLoop w ((data, er) :: rest) ((nw0, some e0) :: sinkRest) 0 0
        = some (nw0, some e0, (data.length : Int), w1))
    ∧ (written = totalRead →
      readFromLoop w src sinkRes written totalRead = some res →
      res.2.1 = none → res.1 = res.2.2.1) := by
  refine ⟨?_, ?_, ?_,
    fun heq hrun hnone =>
      readFromLoop_success_written src sinkRes w written totalRead res heq hrun hnone⟩
  · intro h1 h2 h3
    simp only [readFromLoop, if_pos h1, h2]
    simp [h3]
  · intro h1 h2 h3 h4
    have hbad : ¬(nw0 < 0 ∨ (data.length : Int) < nw0) := by omega
    have hne : (data.length : Int) ≠ nw0 := by omega
    simp only [readFromLoop, if_pos h1, h2]
    simp [hbad, hne]
  · intro h1 h2 h3 h4
    have hbad : ¬(nw0 < 0 ∨ (data.length : Int) < nw0) := by omega
    simp only [readFromLoop, if_pos h1, h2]
    simp [hbad]

theorem readFromLoop_error_spec_witness :
    readFromLoop (newBodyWriter 5 true) [([7, 8, 9], none)] [(1, none)] 0 0
      = some (1, some GoError.shortWrite, 3,
              { body := some [7, 8, 9], maxSize := 5, bytes := 3, sink := [7, 8, 9] }) := by
  have h := (readFromLoop_error_spec (newBodyWriter 5 true)
      { body := some [7, 8, 9], maxSize := 5, bytes := 3, sink := [7, 8, 9] }
      [7, 8, 9] [] none GoError.eof 1 [] [] [] 0 0
      (0, none, 0, newBodyWriter 5 true)).2.1
  simpa using h (by decide) (by decide) (by decide) (by decide)

/-!
Claims C4, C5, C6, C7, C8, C10: the interceptor's attribute assembly and
dispatch.
-/

/-- C4 counterexample: the deny-set of the claim contains `authorization`,
yet a response header named `Authorization` survives response-header capture,
because the response group is filtered against `HiddenResponseHeaders`
(only `set-cookie`), not against the full deny-set. -/
theorem responseHeaderGroup_keeps_authorization :
    HiddenRequestHeaders.contains (lowerName ("Authorization")) = true
    ∧ responseHeaderGroup true [(("Authorization"), [("token")])]
        = some [(("Authorization"), [("token")])] := by
  constructor
  · decide
  · decide

/-- C4 (amended): with header capture enabled, the emitted request header
group keeps exactly the request headers whose lowercased name is outside
`HiddenRequestHeaders`, and the emitted response header group keeps exactly
the response headers whose lowercased name is outside
`HiddenResponseHeaders`. -/
theorem headerGroup_membership_spec :
    ∀ (headers : List (String × List String)) (k : String) (v : List String),
    requestHeaderGroup true headers = some (headerGroup HiddenRequestHeaders headers)
    ∧ ((k, v) ∈ headerGroup HiddenRequestHeaders headers ↔
        (k, v) ∈ headers ∧ HiddenRequestHeaders.contains (lowerName k) = false)
    ∧ responseHeaderGroup true headers = some (headerGroup HiddenResponseHeaders headers)
    ∧ ((k, v) ∈ headerGroup HiddenResponseHeaders headers ↔
        (k, v) ∈ headers ∧ HiddenResponseHeaders.contains (lowerName k) = false) := by
  intro headers k v
  refine ⟨rfl, ?_, rfl, ?_⟩ <;>
    simp [headerGroup, List.mem_filter]

/-- C5: the emitted severity is a function of the final status code alone:
the default severity on 1xx/2xx/3xx, the client-error severity on 400-499,
the server-error severity on 500-599. -/
theorem logLevel_by_status_class :
    ∀ (config : LogConfig) (status : Int),
    (100 ≤ status → status ≤ 399 → logLevel config status = config.defaultLevel)
    ∧ (400 ≤ status → status ≤ 499 → logLevel config status = config.clientErrorLevel)
    ∧ (500 ≤ status → status ≤ 599 → logLevel config status = config.serverErrorLevel) := by
  intro config status
  refine ⟨fun h1 h2 => ?_, fun h1 h2 => ?_, fun h1 h2 => ?_⟩ <;>
    · simp only [logLevel]
      split_ifs <;> first | rfl | (exfalso; omega)

theorem logLevel_by_status_class_witness :
    logLevel ⟨2, 4, 8⟩ 200 = 2 ∧ logLevel ⟨2, 4, 8⟩ 404 = 4 ∧ logLevel ⟨2, 4, 8⟩ 503 = 8 :=
  ⟨(logLevel_by_status_class ⟨2, 4, 8⟩ 200).1 (by decide) (by decide),
   (logLevel_by_status_class ⟨2, 4, 8⟩ 404).2.1 (by decide) (by decide),
   (logLevel_by_status_class ⟨2, 4, 8⟩ 503).2.2 (by decide) (by decide)⟩

/-- C6 counterexample: with status 404 and no recorded handler errors the
emitted message is the (empty) error summary, and with status 200 and a
recorded error it is the fixed message — so the error-summary message is not
carried exactly when the handler recorded errors. -/
theorem logMessage_ignores_recorded_errors :
    logMessage 404 [] = LogMsg.errorSummary []
    ∧ logMessage 200 [("handler failure")] = LogMsg.incoming
    ∧ LogMsg.errorSummary ([] : List String) ≠ LogMsg.incoming := by
  decide

/-- C6 (amended): the record carries the fixed message exactly for statuses
at most 399 and the error-summary string (possibly empty) exactly for
statuses of 400 and above, regardless of whether errors were recorded. -/
theorem logMessage_by_status_class :
    ∀ (status : Int) (errs : List String),
    (status ≤ 399 → logMessage status errs = LogMsg.incoming)
    ∧ (400 ≤ status → logMessage status errs = LogMsg.errorSummary errs) := by
  intro status errs
  refine ⟨fun h => ?_, fun h => ?_⟩ <;>
    · simp only [logMessage]
      split_ifs <;> first | rfl | (exfalso; omega)

theorem logMessage_by_status_class_witness :
    logMessage 200 [] = LogMsg.incoming
    ∧ logMessage 404 [("boom")] = LogMsg.errorSummary [("boom")] :=
  ⟨(logMessage_by_status_class 200 []).1 (by decide),
   (logMessage_by_status_class 404 [("boom")]).2 (by decide)⟩

/-- C7 counterexample: with request-identifier support enabled and a
non-empty inbound `X-Request-Id` value, the middleware does not set the
response header at all — the inbound value is not echoed back in the
response header. -/
theorem setupRequestID_no_echo_header :
    (setupRequestID true ("abc") ("3e8f-generated")).responseHeader = none
    ∧ (none : Option String) ≠ some ("abc") := by
  decide

/-- C7 (amended): with `WithRequestID` enabled, a non-empty inbound
identifier is used as the request identifier, stored in the context and
emitted in the log record, but the response header is left unset; with an
empty inbound identifier the generated identifier is used, stored, emitted,
and set as the response header. -/
theorem setupRequestID_spec :
    ∀ (inbound generated : String),
    (inbound ≠ ("") →
      setupRequestID true inbound generated =
        { requestID := inbound, ctxRequestID := some inbound
          responseHeader := none, logged := some inbound })
    ∧ setupRequestID true ("") generated =
        { requestID := generated, ctxRequestID := some generated
          responseHeader := some generated, logged := some generated } := by
  intro inbound generated
  constructor
  · intro h
    simp [setupRequestID, h]
  · simp [setupRequestID]

theorem setupRequestID_spec_witness :
    setupRequestID true ("abc") ("gen") =
      { requestID := ("abc"), ctxRequestID := some ("abc")
        responseHeader := none, logged := some ("abc") } :=
  (setupRequestID_spec ("abc") ("gen")).1 (by decide)

/-- Helper: when every filter accepts, the loop runs them all and reports
acceptance. -/
theorem runFilters_all_true {α : Type} (filters : List (α → Bool)) (c : α)
    (h : ∀ g ∈ filters, g c = true) :
    runFilters filters c = (true, filters.length) := by
  induction filters with
  | nil => rfl
  | cons f fs ih =>
    have hf : f c = true := h f (List.mem_cons_self f fs)
    have hfs := ih (fun g hg => h g (List.mem_cons_of_mem f hg))
    simp [runFilters, hf, hfs]

/-- Helper: the first rejecting filter stops the loop; the filters after it
are not looked at (the result does not depend on `post`). -/
theorem runFilters_first_false {α : Type} (pre post : List (α → Bool)) (f : α → Bool)
    (c : α) (hpre : ∀ g ∈ pre, g c = true) (hf : f c = false) :
    runFilters (pre ++ f :: post) c = (false, pre.length + 1) := by
  induction pre with
  | nil => simp [runFilters, hf]
  | cons g gs ih =>
    have hg : g c = true := hpre g (List.mem_cons_self g gs)
    have hgs := ih (fun g1 hg1 => hpre g1 (List.mem_cons_of_mem g hg1))
    simp [runFilters, hg, hgs]

/-- C8: filters run left to right over the completed view; if the filters
before `f` accept and `f` rejects, emission is skipped and exactly the
filters up to and including `f` were evaluated (the result is the same for
every `post`, so no later filter is looked at); if every filter accepts,
exactly one record is emitted. -/
theorem runFilters_short_circuit :
    ∀ {α : Type} (pre post : List (α → Bool)) (f : α → Bool)
      (filters : List (α → Bool)) (c : α),
    ((∀ g ∈ pre, g c = true) → f c = false →
      runFilters (pre ++ f :: post) c = (false, pre.length + 1)
      ∧ emitCount (pre ++ f :: post) c = 0)
    ∧ ((∀ g ∈ filters, g c = true) →
      runFilters filters c = (true, filters.length) ∧ emitCount filters c = 1) := by
  intro α pre post f filters c
  constructor
  · intro hpre hf
    have h := runFilters_first_false pre post f c hpre hf
    exact ⟨h, by simp [emitCount, h]⟩
  · intro hall
    have h := runFilters_all_true filters c hall
    exact ⟨h, by simp [emitCount, h]⟩

theorem runFilters_short_circuit_witness :
    runFilters [fun n : Nat => decide (0 < n), fun _ : Nat => false, fun _ : Nat => true] 3
      = (false, 2)
    ∧ emitCount [fun n : Nat => decide (0 < n), fun _ : Nat => false, fun _ : Nat => true] 3
      = 0 :=
  (runFilters_short_circuit [fun n : Nat => decide (0 < n)] [fun _ : Nat => true]
      (fun _ : Nat => false) [] 3).1
    (by intro g hg; rw [List.mem_singleton] at hg; subst hg; rfl) rfl

/-- C10: when the value stored under the custom-attributes key is of any
type other than a slice of attributes, `AddCustomAttributes` leaves the
stored value unchanged and drops the attribute, and the merge step leaves
the built-in attributes unchanged; both are total functions (no error, no
panic). -/
theorem AddCustomAttributes_ignores_other_type :
    ∀ (tag : String) (attr : String × String) (attributes : List (String × String)),
    AddCustomAttributes (some (CtxValue.other tag)) attr = some (CtxValue.other tag)
    ∧ mergeCustomAttributes attributes (some (CtxValue.other tag)) = attributes :=
  fun _ _ _ => ⟨rfl, rfl⟩

end SlogGin
